import Mathlib

/-!
# JNI bridge `android_net_wifi_Wifi.cpp`

A shallow embedding of `core/jni/android_net_wifi_Wifi.cpp`.

Conventions of the embedding.

* A byte (`char`) is a `Nat`; a C string passed by pointer (`cmd`, `fmt`, `expect`, the
  chars of a Java string) is the list of its bytes, the terminating NUL left out.
* A `char` array on the stack (`reply`, the event buffer) is the list of all its bytes;
  reading it as a C string stops at the first NUL (`cstr`).
* The functions of the external control library (`wifi_command`, `wifi_wait_for_event`,
  the driver and supplicant calls) are parameters: nothing is assumed of them beyond what
  a theorem states as a hypothesis.
* `Outcome.sent` is the list of calls made to `wifi_command`, each with the command and
  the reply capacity it was given; `Outcome.result = none` means that the run leaves
  defined behaviour (an access outside an array, a value `atoi` cannot represent, a
  format directive other than the ones this file uses).
* A `jstring` is `none` for the null reference and otherwise carries the bytes of the C
  string the Java string is created from (the conversion to UTF-16 and the allocation
  belong to the runtime).
* `size_t` has `w` bits, a parameter; the theorems ask for `32 ≤ w`. `int` has 32 bits.
* The C library (`vsnprintf`, `strcmp`, `atoi`) is not part of the file; its functions
  are modelled as the C standard describes them.
-/

namespace Wifi

/-! ## Constants and C library -/

/-- The constant of `#define BUF_SIZE 256`. -/
def BUF_SIZE : Nat := 256

/-- Largest value of `int` (32 bits). -/
def INT_MAX : Int := 2147483647

/-- Smallest value of `int` (32 bits). -/
def INT_MIN : Int := -2147483648

/-- Conversion of an `int` expression to `size_t`, for a `size_t` of `w` bits. -/
def toSize (w : Nat) (i : Int) : Nat := (i % (2 : Int) ^ w).toNat

/-- The C string held at the start of an array: its bytes before the first NUL. -/
def cstr : List Nat → List Nat
  | [] => []
  | c :: cs => if c = 0 then [] else c :: cstr cs

/-- Reading an array as a C string; `none` when the array holds no NUL, so that the
read would run past its end. -/
def readCStr (buf : List Nat) : Option (List Nat) :=
  if 0 ∈ buf then some (cstr buf) else none

/-- Modelled from the spec: the formatting of `vsnprintf` belongs to the C library and is
not under `src/`. Expansion of a format made of ordinary bytes, `%%` and `%s` (37 is `%`,
115 is `s`), each `%s` replaced by the next argument; `none` for any other directive and
for a `%s` with no argument left. -/
def formatOutput : List Nat → List (List Nat) → Option (List Nat)
  | [], _ => some []
  | [c], _ => if c = 37 then none else some [c]
  | c :: d :: fmt, args =>
    if c = 37 then
      if d = 37 then (formatOutput fmt args).map (fun out => 37 :: out)
      else if d = 115 then
        match args with
        | [] => none
        | a :: rest => (formatOutput fmt rest).map (fun out => a ++ out)
      else none
    else (formatOutput (d :: fmt) args).map (fun out => c :: out)

/-- Modelled from the spec: `vsnprintf(buf, size, fmt, args)` belongs to the C library
and is not under `src/`. For `size ≥ 1` the returned `byteCount` is the length of the
whole expansion, and `buf` receives its first `size - 1` bytes and a NUL (the truncation
of the buffer). The second component is the C string left in `buf`. -/
def vsnprintf (size : Nat) (fmt : List Nat) (args : List (List Nat)) :
    Option (Int × List Nat) :=
  (formatOutput fmt args).map (fun out => ((out.length : Int), out.take (size - 1)))

/-- Modelled from the spec: the C library test `isspace` in the C locale, true of the
space (32) and of `\t \n \v \f \r` (9 to 13); it tells the leading white space of
`atoi`. -/
def isspace (c : Nat) : Bool := c == 32 || (9 ≤ c && c ≤ 13)

/-- Modelled from the spec: the C library test `isdigit`, true of `'0'` (48) to `'9'`
(57); it tells the decimal digits of `atoi`. -/
def isdigit (c : Nat) : Bool := 48 ≤ c && c ≤ 57

/-- Modelled from the spec: the digit loop of `atoi`, which accumulates decimal digits
and stops at the first byte that is not one, ignoring what follows. -/
def atoiDigits (acc : Nat) : List Nat → Nat
  | [] => acc
  | c :: cs => if isdigit c then atoiDigits (acc * 10 + (c - 48)) cs else acc

/-- Modelled from the spec: the first step of `atoi`, which skips the leading white
space of a C string. -/
def skipSpaces : List Nat → List Nat
  | [] => []
  | c :: cs => if isspace c then skipSpaces cs else c :: cs

/-- Modelled from the spec: the value `atoi` denotes, read as white space, an optional
sign (`+` is 43, `-` is 45), then decimal digits; 0 when no digit follows. -/
def atoiValue (s : List Nat) : Int :=
  match skipSpaces s with
  | [] => 0
  | c :: cs =>
    if c = 45 then -((atoiDigits 0 cs : Nat) : Int)
    else if c = 43 then ((atoiDigits 0 cs : Nat) : Int)
    else ((atoiDigits 0 (c :: cs) : Nat) : Int)

/-- Modelled from the spec: `atoi` belongs to the C library and is not under `src/`. It
returns the value of the optionally signed decimal digits that follow any leading white
space, ignoring what comes after them, and 0 when there are no such digits. The C standard
leaves the result undefined when the value is not representable as an `int`: `none`. -/
def atoi (s : List Nat) : Option Int :=
  if INT_MIN ≤ atoiValue s ∧ atoiValue s ≤ INT_MAX then some (atoiValue s) else none

/-! ## The external control library -/

/-- What a call `wifi_command(cmd, replybuf, &reply_len)` leaves behind: its return
code, the contents of the whole reply array, and the value stored in `reply_len`. -/
structure CmdResult where
  ret : Int
  replybuf : List Nat
  reply_len : Nat

/-- The type of `wifi_command`: command, reply array as passed in, capacity passed in
`reply_len`. -/
abbrev WifiCommand := List Nat → List Nat → Nat → CmdResult

/-- The type of `wifi_wait_for_event(buf, buflen)`: array as passed in and its size, to
the returned `nread` and the array afterwards. -/
abbrev WifiWaitForEvent := List Nat → Nat → Int × List Nat

/-- The reply `wifi_command` reports: the first `reply_len` bytes of the reply array. -/
def CmdResult.reply (r : CmdResult) : List Nat := r.replybuf.take r.reply_len

/-- The callee kept to its contract for an array of `replybuflen` bytes: the array has
that size and the reported length is at most the capacity `replybuflen - 1`. -/
def CmdResult.fits (r : CmdResult) (replybuflen : Nat) : Prop :=
  r.replybuf.length = replybuflen ∧ r.reply_len ≤ replybuflen - 1

instance (r : CmdResult) (n : Nat) : Decidable (r.fits n) := by
  unfold CmdResult.fits; exact inferInstance

/-- Calls made to `wifi_command` together with the value computed, if defined. -/
structure Outcome (α : Type) where
  sent : List (List Nat × Nat)
  result : Option α

/-- A Java string reference: `none` is null. -/
abbrev jstring := Option (List Nat)

/-! ## The functions of the file -/

/-- The index at which `doCommand` stores the NUL, decided by the test
`reply_len > 0 && replybuf[reply_len-1] == '\n'`; `none` when that test reads outside
the array. -/
def nulIndex (replybuf : List Nat) (reply_len : Nat) : Option Nat :=
  if reply_len > 0 then
    match replybuf.get? (reply_len - 1) with
    | none => none
    | some c => if c = 10 then some (reply_len - 1) else some reply_len
  else some reply_len

/-- Source function `static int doCommand(const char *cmd, char *replybuf, int
replybuflen)`: the return value and the reply array afterwards. -/
def doCommand (w : Nat) (wifi_command : WifiCommand) (cmd replybuf : List Nat)
    (replybuflen : Int) : Outcome (Int × List Nat) :=
  let reply_len := toSize w (replybuflen - 1)
  let r := wifi_command cmd replybuf reply_len
  { sent := [(cmd, reply_len)]
    result :=
      if r.ret ≠ 0 then some (-1, r.replybuf)
      else
        match nulIndex r.replybuf r.reply_len with
        | none => none
        | some i =>
          if i < r.replybuf.length then some (0, r.replybuf.set i 0) else none }

/-- Source function `static jint doIntCommand(const char* fmt, ...)`; `reply` is the
uninitialised content of the local array `char reply[BUF_SIZE]`. -/
def doIntCommand (w : Nat) (wifi_command : WifiCommand) (fmt : List Nat)
    (args : List (List Nat)) (reply : List Nat) : Outcome Int :=
  match vsnprintf BUF_SIZE fmt args with
  | none => { sent := [], result := none }
  | some (byteCount, buf) =>
    if byteCount < 0 ∨ byteCount ≥ (BUF_SIZE : Int) then { sent := [], result := some (-1) }
    else
      let o := doCommand w wifi_command buf reply (BUF_SIZE : Int)
      { sent := o.sent
        result := o.result.bind (fun p =>
          if p.1 ≠ 0 then some (-1) else (readCStr p.2).bind atoi) }

/-- Source function `static jboolean doBooleanCommand(const char* expect, const char* fmt, ...)`. -/
def doBooleanCommand (w : Nat) (wifi_command : WifiCommand) (expect fmt : List Nat)
    (args : List (List Nat)) (reply : List Nat) : Outcome Bool :=
  match vsnprintf BUF_SIZE fmt args with
  | none => { sent := [], result := none }
  | some (byteCount, buf) =>
    if byteCount < 0 ∨ byteCount ≥ (BUF_SIZE : Int) then { sent := [], result := some false }
    else
      let o := doCommand w wifi_command buf reply (BUF_SIZE : Int)
      { sent := o.sent
        result := o.result.bind (fun p =>
          if p.1 ≠ 0 then some false
          else (readCStr p.2).map (fun s => decide (s = expect))) }

/-- Source function `static jstring doStringCommand(JNIEnv* env, const char* fmt, ...)`;
`reply` is the uninitialised content of the local array `char reply[4096]`. -/
def doStringCommand (w : Nat) (wifi_command : WifiCommand) (fmt : List Nat)
    (args : List (List Nat)) (reply : List Nat) : Outcome jstring :=
  match vsnprintf BUF_SIZE fmt args with
  | none => { sent := [], result := none }
  | some (byteCount, buf) =>
    if byteCount < 0 ∨ byteCount ≥ (BUF_SIZE : Int) then { sent := [], result := some none }
    else
      let o := doCommand w wifi_command buf reply 4096
      { sent := o.sent
        result := o.result.bind (fun p =>
          if p.1 ≠ 0 then some none
          else (readCStr p.2).map (fun s => some s)) }

/-- Source function `android_net_wifi_isDriverLoaded`, as a function of what
`is_wifi_driver_loaded()` returns. -/
def android_net_wifi_isDriverLoaded (is_wifi_driver_loaded : Int) : Bool :=
  is_wifi_driver_loaded == 1

/-- Source function `android_net_wifi_loadDriver`, as a function of what
`wifi_load_driver()` returns. -/
def android_net_wifi_loadDriver (wifi_load_driver : Int) : Bool :=
  wifi_load_driver == 0

/-- Source function `android_net_wifi_unloadDriver`, as a function of what
`wifi_unload_driver()` returns. -/
def android_net_wifi_unloadDriver (wifi_unload_driver : Int) : Bool :=
  wifi_unload_driver == 0

/-- Source function `android_net_wifi_startSupplicant`, as a function of what
`wifi_start_supplicant()` returns. -/
def android_net_wifi_startSupplicant (wifi_start_supplicant : Int) : Bool :=
  wifi_start_supplicant == 0

/-- Source function `android_net_wifi_startP2pSupplicant`, as a function of what
`wifi_start_p2p_supplicant()` returns. -/
def android_net_wifi_startP2pSupplicant (wifi_start_p2p_supplicant : Int) : Bool :=
  wifi_start_p2p_supplicant == 0

/-- Source function `android_net_wifi_killSupplicant`, as a function of what
`wifi_stop_supplicant()` returns. -/
def android_net_wifi_killSupplicant (wifi_stop_supplicant : Int) : Bool :=
  wifi_stop_supplicant == 0

/-- Source function `android_net_wifi_connectToSupplicant`, as a function of what
`wifi_connect_to_supplicant()` returns. -/
def android_net_wifi_connectToSupplicant (wifi_connect_to_supplicant : Int) : Bool :=
  wifi_connect_to_supplicant == 0

/-- Source function `android_net_wifi_waitForEvent`; `buf` is the uninitialised content
of the local array `char buf[BUF_SIZE]`. The outer `none` is a read past the end of the
array. -/
def android_net_wifi_waitForEvent (wifi_wait_for_event : WifiWaitForEvent)
    (buf : List Nat) : Option jstring :=
  let ev := wifi_wait_for_event buf BUF_SIZE
  if ev.1 > 0 then (readCStr ev.2).map (fun s => some s) else some none

/-- The expected reply `"OK"`. -/
def OK : List Nat := [79, 75]

/-- The format `"%s"`. -/
def FMT_S : List Nat := [37, 115]

/-- Source function `android_net_wifi_doBooleanCommand`; `command` is `command.c_str()`,
`none` when it is NULL; `reply` is the uninitialised content of the callee's array. -/
def android_net_wifi_doBooleanCommand (w : Nat) (wifi_command : WifiCommand)
    (command : Option (List Nat)) (reply : List Nat) : Outcome Bool :=
  match command with
  | none => { sent := [], result := some false }
  | some c => doBooleanCommand w wifi_command OK FMT_S [c] reply

/-- Source function `android_net_wifi_doIntCommand`. -/
def android_net_wifi_doIntCommand (w : Nat) (wifi_command : WifiCommand)
    (command : Option (List Nat)) (reply : List Nat) : Outcome Int :=
  match command with
  | none => { sent := [], result := some (-1) }
  | some c => doIntCommand w wifi_command FMT_S [c] reply

/-- Source function `android_net_wifi_doStringCommand`. -/
def android_net_wifi_doStringCommand (w : Nat) (wifi_command : WifiCommand)
    (command : Option (List Nat)) (reply : List Nat) : Outcome jstring :=
  match command with
  | none => { sent := [], result := some none }
  | some c => doStringCommand w wifi_command FMT_S [c] reply

/-! ## Words of the specification -/

/-- Removal of at most one trailing newline (byte 10) from a reply. -/
def stripNewline (s : List Nat) : List Nat :=
  if s.getLast? = some 10 then s.dropLast else s

/-- Decimal value of a run of digit bytes. -/
def decimalValue (ds : List Nat) : Nat :=
  ds.foldl (fun acc d => acc * 10 + (d - 48)) 0

/-! ## Sample libraries, for concrete runs -/

/-- A `wifi_command` that returns `ret` and stores `bytes` at the start of the reply
array, reporting their number in `reply_len`. -/
def replyWith (ret : Int) (bytes : List Nat) : WifiCommand :=
  fun _ replybuf _ =>
    { ret := ret, replybuf := bytes ++ replybuf.drop bytes.length, reply_len := bytes.length }

/-- A `wifi_wait_for_event` that returns `nread` and stores `bytes` at the start of the
event array. -/
def eventWith (nread : Int) (bytes : List Nat) : WifiWaitForEvent :=
  fun buf _ => (nread, bytes ++ buf.drop bytes.length)

/-- An array of `n` bytes, all `b`. -/
def filled (n b : Nat) : List Nat := List.replicate n b

/-! ## Auxiliary facts -/

theorem toSize_eq {w : Nat} {i : Int} (hw : 32 ≤ w) (h0 : 0 ≤ i) (h1 : i ≤ INT_MAX) :
    toSize w i = i.toNat := by
  unfold toSize
  have h2 : (2 : Int) ^ 32 ≤ (2 : Int) ^ w := pow_le_pow_right₀ (by norm_num) hw
  have h3 : i < (2 : Int) ^ w := by
    unfold INT_MAX at h1
    have : (2 : Int) ^ 32 = 4294967296 := by norm_num
    omega
  rw [Int.emod_eq_of_lt h0 h3]

theorem toSize_255 {w : Nat} (hw : 32 ≤ w) : toSize w ((BUF_SIZE : Int) - 1) = 255 := by
  rw [toSize_eq hw (by decide) (by decide)]; rfl

theorem toSize_4095 {w : Nat} (hw : 32 ≤ w) : toSize w ((4096 : Int) - 1) = 4095 := by
  rw [toSize_eq hw (by decide) (by decide)]; rfl

theorem cstr_set_zero (l : List Nat) (i : Nat) (h : i < l.length) :
    cstr (l.set i 0) = cstr (l.take i) := by
  induction l generalizing i with
  | nil => simp at h
  | cons c cs ih =>
    cases i with
    | zero => simp [cstr]
    | succ j =>
      simp only [List.set_cons_succ, List.take_succ_cons, cstr]
      rw [ih j (by simpa using h)]

theorem zero_mem_set_zero (l : List Nat) (i : Nat) (h : i < l.length) :
    0 ∈ l.set i 0 := by
  induction l generalizing i with
  | nil => simp at h
  | cons c cs ih =>
    cases i with
    | zero => simp
    | succ j =>
      simp only [List.set_cons_succ, List.mem_cons]
      exact Or.inr (ih j (by simpa using h))

theorem readCStr_set_zero (l : List Nat) (i : Nat) (h : i < l.length) :
    readCStr (l.set i 0) = some (cstr (l.take i)) := by
  unfold readCStr
  rw [if_pos (zero_mem_set_zero l i h), cstr_set_zero l i h]

theorem cstr_eq_self (l : List Nat) (h : 0 ∉ l) : cstr l = l := by
  induction l with
  | nil => rfl
  | cons c cs ih =>
    simp only [List.mem_cons, not_or] at h
    have hc : c ≠ 0 := fun e => h.1 e.symm
    simp [cstr, hc, ih h.2]

theorem nulIndex_eq (buf : List Nat) (n : Nat) (h : n < buf.length) :
    nulIndex buf n = some (stripNewline (buf.take n)).length ∧
      buf.take (stripNewline (buf.take n)).length = stripNewline (buf.take n) := by
  cases n with
  | zero => simp [nulIndex, stripNewline]
  | succ k =>
    have hk : k < buf.length := by omega
    have hget : buf[k]? = some buf[k] := List.getElem?_eq_getElem hk
    have htake : buf.take (k + 1) = buf.take k ++ [buf[k]] := by
      rw [List.take_succ, hget]; rfl
    have hlen : (buf.take k).length = k := by
      rw [List.length_take]; omega
    have hlen2 : (buf.take k ++ [buf[k]]).length = k + 1 := by
      rw [List.length_append, hlen]; rfl
    by_cases hc : buf[k] = 10
    · have hs : stripNewline (buf.take k ++ [buf[k]]) = buf.take k := by
        unfold stripNewline
        rw [List.getLast?_concat, if_pos (by rw [hc]), List.dropLast_concat]
      rw [htake, hs, hlen]
      simp [nulIndex, hget, hc]
    · have hs : stripNewline (buf.take k ++ [buf[k]]) = buf.take k ++ [buf[k]] := by
        unfold stripNewline
        rw [List.getLast?_concat, if_neg (by simpa using hc)]
      rw [htake, hs, hlen2]
      refine ⟨?_, htake⟩
      simp [nulIndex, hget, hc]

theorem stripNewline_length_le (s : List Nat) : (stripNewline s).length ≤ s.length := by
  unfold stripNewline
  split
  · rw [List.length_dropLast]; omega
  · exact Nat.le_refl _

theorem formatOutput_s (c : List Nat) : formatOutput FMT_S [c] = some c := by
  simp [formatOutput, FMT_S]

theorem vsnprintf_s (c : List Nat) :
    vsnprintf BUF_SIZE FMT_S [c] = some ((c.length : Int), c.take 255) := by
  simp [vsnprintf, formatOutput_s, BUF_SIZE]

/-- On success of `wifi_command` with a reported length inside the array, `doCommand`
returns 0 and the array then holds, as a C string, the reply without one trailing
newline. -/
theorem doCommand_ok (w : Nat) (wifi_command : WifiCommand) (cmd replybuf : List Nat)
    (replybuflen : Int) (r : CmdResult)
    (hr : wifi_command cmd replybuf (toSize w (replybuflen - 1)) = r)
    (hret : r.ret = 0) (hlen : r.reply_len < r.replybuf.length) :
    (doCommand w wifi_command cmd replybuf replybuflen).result =
      some (0, r.replybuf.set (stripNewline r.reply).length 0)
    ∧ (stripNewline r.reply).length < r.replybuf.length
    ∧ r.replybuf.take (stripNewline r.reply).length = stripNewline r.reply := by
  have hidx := nulIndex_eq _ _ hlen
  have hle : (stripNewline r.reply).length < r.replybuf.length := by
    have h1 := stripNewline_length_le r.reply
    have h2 : r.reply.length ≤ r.reply_len := by
      unfold CmdResult.reply
      rw [List.length_take]
      omega
    omega
  refine ⟨?_, hle, hidx.2⟩
  unfold doCommand
  simp only [hr, hret, ne_eq, not_true_eq_false, if_false]
  rw [hidx.1]
  simp only []
  exact if_pos hle

/-- When `wifi_command` fails, `doCommand` returns -1 without touching the array. -/
theorem doCommand_fail (w : Nat) (wifi_command : WifiCommand) (cmd replybuf : List Nat)
    (replybuflen : Int)
    (hret : (wifi_command cmd replybuf (toSize w (replybuflen - 1))).ret ≠ 0) :
    (doCommand w wifi_command cmd replybuf replybuflen).result =
      some (-1, (wifi_command cmd replybuf (toSize w (replybuflen - 1))).replybuf) := by
  unfold doCommand
  simp only [hret, ne_eq, not_false_eq_true, if_true]

theorem doCommand_sent (w : Nat) (wifi_command : WifiCommand) (cmd replybuf : List Nat)
    (replybuflen : Int) :
    (doCommand w wifi_command cmd replybuf replybuflen).sent =
      [(cmd, toSize w (replybuflen - 1))] := rfl

theorem take_255_eq (c : List Nat) (hc : c.length < 256) : c.take 255 = c :=
  List.take_of_length_le (by omega)

theorem native_bool_eq (w : Nat) (wifi_command : WifiCommand) (c reply : List Nat)
    (hc : c.length < 256) :
    android_net_wifi_doBooleanCommand w wifi_command (some c) reply =
      { sent := (doCommand w wifi_command c reply (BUF_SIZE : Int)).sent
        result := (doCommand w wifi_command c reply (BUF_SIZE : Int)).result.bind (fun p =>
          if p.1 ≠ 0 then some false
          else (readCStr p.2).map (fun s => decide (s = OK))) } := by
  have h1 : ¬ ((c.length : Int) < 0 ∨ (c.length : Int) ≥ (BUF_SIZE : Int)) := by
    unfold BUF_SIZE; omega
  simp only [android_net_wifi_doBooleanCommand, doBooleanCommand, vsnprintf_s, h1, if_false,
    take_255_eq c hc]

theorem native_int_eq (w : Nat) (wifi_command : WifiCommand) (c reply : List Nat)
    (hc : c.length < 256) :
    android_net_wifi_doIntCommand w wifi_command (some c) reply =
      { sent := (doCommand w wifi_command c reply (BUF_SIZE : Int)).sent
        result := (doCommand w wifi_command c reply (BUF_SIZE : Int)).result.bind (fun p =>
          if p.1 ≠ 0 then some (-1) else (readCStr p.2).bind atoi) } := by
  have h1 : ¬ ((c.length : Int) < 0 ∨ (c.length : Int) ≥ (BUF_SIZE : Int)) := by
    unfold BUF_SIZE; omega
  simp only [android_net_wifi_doIntCommand, doIntCommand, vsnprintf_s, h1, if_false,
    take_255_eq c hc]

theorem native_string_eq (w : Nat) (wifi_command : WifiCommand) (c reply : List Nat)
    (hc : c.length < 256) :
    android_net_wifi_doStringCommand w wifi_command (some c) reply =
      { sent := (doCommand w wifi_command c reply 4096).sent
        result := (doCommand w wifi_command c reply 4096).result.bind (fun p =>
          if p.1 ≠ 0 then some none else (readCStr p.2).map (fun s => some s)) } := by
  have h1 : ¬ ((c.length : Int) < 0 ∨ (c.length : Int) ≥ (BUF_SIZE : Int)) := by
    unfold BUF_SIZE; omega
  simp only [android_net_wifi_doStringCommand, doStringCommand, vsnprintf_s, h1, if_false,
    take_255_eq c hc]

theorem native_bool_long (w : Nat) (wifi_command : WifiCommand) (c reply : List Nat)
    (hc : 256 ≤ c.length) :
    android_net_wifi_doBooleanCommand w wifi_command (some c) reply =
      { sent := [], result := some false } := by
  have h1 : ((c.length : Int) < 0 ∨ (c.length : Int) ≥ (BUF_SIZE : Int)) := by
    unfold BUF_SIZE; omega
  simp only [android_net_wifi_doBooleanCommand, doBooleanCommand, vsnprintf_s, h1, if_true]

theorem native_int_long (w : Nat) (wifi_command : WifiCommand) (c reply : List Nat)
    (hc : 256 ≤ c.length) :
    android_net_wifi_doIntCommand w wifi_command (some c) reply =
      { sent := [], result := some (-1) } := by
  have h1 : ((c.length : Int) < 0 ∨ (c.length : Int) ≥ (BUF_SIZE : Int)) := by
    unfold BUF_SIZE; omega
  simp only [android_net_wifi_doIntCommand, doIntCommand, vsnprintf_s, h1, if_true]

theorem native_string_long (w : Nat) (wifi_command : WifiCommand) (c reply : List Nat)
    (hc : 256 ≤ c.length) :
    android_net_wifi_doStringCommand w wifi_command (some c) reply =
      { sent := [], result := some none } := by
  have h1 : ((c.length : Int) < 0 ∨ (c.length : Int) ≥ (BUF_SIZE : Int)) := by
    unfold BUF_SIZE; omega
  simp only [android_net_wifi_doStringCommand, doStringCommand, vsnprintf_s, h1, if_true]

theorem filled_length (n b : Nat) : (filled n b).length = n := by
  simp [filled]

theorem fits_lt {r : CmdResult} {n : Nat} (hn : 0 < n) (h : r.fits n) :
    r.reply_len < r.replybuf.length := by
  unfold CmdResult.fits at h
  omega

theorem replyWith_reply (ret : Int) (bytes c buf : List Nat) (k : Nat) :
    (replyWith ret bytes c buf k).reply = bytes := by
  simp [replyWith, CmdResult.reply]

theorem replyWith_fits (ret : Int) (bytes c buf : List Nat) (k n : Nat)
    (hb : bytes.length ≤ n - 1) (hn : buf.length = n) :
    (replyWith ret bytes c buf k).fits n := by
  simp only [replyWith, CmdResult.fits, List.length_append, List.length_drop]
  omega

/-- After a successful `doCommand` on an array that fits, the array read as a C string is
the reply, cut at its first NUL, without one trailing newline. -/
theorem doCommand_ok_cstr (w : Nat) (wifi_command : WifiCommand) (cmd replybuf : List Nat)
    (replybuflen : Int) (r : CmdResult)
    (hr : wifi_command cmd replybuf (toSize w (replybuflen - 1)) = r)
    (hret : r.ret = 0) (hlen : r.reply_len < r.replybuf.length) :
    ∃ buf, (doCommand w wifi_command cmd replybuf replybuflen).result = some (0, buf)
      ∧ readCStr buf = some (cstr (stripNewline r.reply)) := by
  obtain ⟨h1, h2, h3⟩ := doCommand_ok w wifi_command cmd replybuf replybuflen r hr hret hlen
  refine ⟨_, h1, ?_⟩
  rw [readCStr_set_zero _ _ h2, h3]

theorem native_bool_ok (w : Nat) (hw : 32 ≤ w) (wifi_command : WifiCommand)
    (c reply : List Nat) (hc : c.length < 256) (hret : (wifi_command c reply 255).ret = 0)
    (hfits : (wifi_command c reply 255).fits 256) :
    (android_net_wifi_doBooleanCommand w wifi_command (some c) reply).result =
      some (decide (cstr (stripNewline (wifi_command c reply 255).reply) = OK)) := by
  obtain ⟨buf, h1, h2⟩ := doCommand_ok_cstr w wifi_command c reply (BUF_SIZE : Int)
    (wifi_command c reply 255) (by rw [toSize_255 hw]) hret (fits_lt (by decide) hfits)
  rw [native_bool_eq w wifi_command c reply hc]
  simp only [h1, Option.some_bind, ne_eq, not_true_eq_false, if_false, h2, Option.map_some']

theorem native_int_ok (w : Nat) (hw : 32 ≤ w) (wifi_command : WifiCommand)
    (c reply : List Nat) (hc : c.length < 256) (hret : (wifi_command c reply 255).ret = 0)
    (hfits : (wifi_command c reply 255).fits 256) :
    (android_net_wifi_doIntCommand w wifi_command (some c) reply).result =
      atoi (cstr (stripNewline (wifi_command c reply 255).reply)) := by
  obtain ⟨buf, h1, h2⟩ := doCommand_ok_cstr w wifi_command c reply (BUF_SIZE : Int)
    (wifi_command c reply 255) (by rw [toSize_255 hw]) hret (fits_lt (by decide) hfits)
  rw [native_int_eq w wifi_command c reply hc]
  simp only [h1, Option.some_bind, ne_eq, not_true_eq_false, if_false, h2]

theorem native_string_ok (w : Nat) (hw : 32 ≤ w) (wifi_command : WifiCommand)
    (c reply : List Nat) (hc : c.length < 256) (hret : (wifi_command c reply 4095).ret = 0)
    (hfits : (wifi_command c reply 4095).fits 4096) :
    (android_net_wifi_doStringCommand w wifi_command (some c) reply).result =
      some (some (cstr (stripNewline (wifi_command c reply 4095).reply))) := by
  obtain ⟨buf, h1, h2⟩ := doCommand_ok_cstr w wifi_command c reply 4096
    (wifi_command c reply 4095) (by rw [toSize_4095 hw]) hret (fits_lt (by decide) hfits)
  rw [native_string_eq w wifi_command c reply hc]
  simp only [h1, Option.some_bind, ne_eq, not_true_eq_false, if_false, h2, Option.map_some']

theorem native_bool_fail (w : Nat) (hw : 32 ≤ w) (wifi_command : WifiCommand)
    (c reply : List Nat) (hc : c.length < 256) (hret : (wifi_command c reply 255).ret ≠ 0) :
    (android_net_wifi_doBooleanCommand w wifi_command (some c) reply).result = some false := by
  have h1 := doCommand_fail w wifi_command c reply (BUF_SIZE : Int)
  rw [toSize_255 hw] at h1
  rw [native_bool_eq w wifi_command c reply hc]
  simp only [h1 hret]
  rfl

theorem native_int_fail (w : Nat) (hw : 32 ≤ w) (wifi_command : WifiCommand)
    (c reply : List Nat) (hc : c.length < 256) (hret : (wifi_command c reply 255).ret ≠ 0) :
    (android_net_wifi_doIntCommand w wifi_command (some c) reply).result = some (-1) := by
  have h1 := doCommand_fail w wifi_command c reply (BUF_SIZE : Int)
  rw [toSize_255 hw] at h1
  rw [native_int_eq w wifi_command c reply hc]
  simp only [h1 hret]
  rfl

theorem stripNewline_cases (s : List Nat) :
    s = stripNewline s ∨ s = stripNewline s ++ [10] := by
  unfold stripNewline
  by_cases h : s.getLast? = some 10
  · rw [if_pos h]
    right
    rcases List.eq_nil_or_concat s with hs | ⟨t, b, hs⟩
    · subst hs
      simp at h
    · rw [List.concat_eq_append] at hs
      subst hs
      rw [List.getLast?_concat] at h
      rw [List.dropLast_concat]
      cases h
      rfl
  · rw [if_neg h]
    left
    rfl

theorem stripNewline_two_newlines (s : List Nat) :
    stripNewline (s ++ [10, 10]) = s ++ [10] := by
  have h : s ++ [10, 10] = (s ++ [10]) ++ [10] := by simp
  rw [h]
  unfold stripNewline
  rw [List.getLast?_concat, if_pos rfl, List.dropLast_concat]

theorem not_mem_stripNewline (s : List Nat) (h : 0 ∉ s) : 0 ∉ stripNewline s := by
  intro hm
  apply h
  rcases stripNewline_cases s with hs | hs
  · rw [hs]; exact hm
  · rw [hs]; exact List.mem_append_left _ hm

theorem sample_ok_iff (bytes c0 : List Nat) :
    (∃ c, some c0 = some c ∧ c.length < 256
        ∧ (replyWith 0 bytes c (filled 256 0) 255).ret = 0
        ∧ cstr (stripNewline (replyWith 0 bytes c (filled 256 0) 255).reply) = OK)
      ↔ (c0.length < 256 ∧ cstr (stripNewline bytes) = OK) := by
  constructor
  · rintro ⟨c, hc, hlen, _, hok⟩
    cases hc
    rw [replyWith_reply] at hok
    exact ⟨hlen, hok⟩
  · rintro ⟨hlen, hok⟩
    exact ⟨c0, rfl, hlen, rfl, by rw [replyWith_reply]; exact hok⟩

theorem sample_fits (ret : Int) (bytes : List Nat) (command : Option (List Nat))
    (hb : bytes.length ≤ 255) :
    ∀ c, command = some c → (replyWith ret bytes c (filled 256 0) 255).ret = 0 →
      (replyWith ret bytes c (filled 256 0) 255).fits 256 :=
  fun c _ _ => replyWith_fits ret bytes c (filled 256 0) 255 256 hb (filled_length 256 0)

theorem isdigit_iff (c : Nat) : isdigit c = true ↔ 48 ≤ c ∧ c ≤ 57 := by
  simp [isdigit]

theorem isspace_iff (c : Nat) : isspace c = true ↔ c = 32 ∨ (9 ≤ c ∧ c ≤ 13) := by
  simp [isspace]

theorem skipSpaces_append (ws t : List Nat) (h : ∀ b ∈ ws, isspace b = true) :
    skipSpaces (ws ++ t) = skipSpaces t := by
  induction ws with
  | nil => rfl
  | cons b bs ih =>
    have hb : isspace b = true := h b (List.mem_cons_self _ _)
    simp only [List.cons_append, skipSpaces, hb, if_true]
    exact ih (fun x hx => h x (List.mem_cons_of_mem _ hx))

theorem skipSpaces_cons (b : Nat) (t : List Nat) (h : isspace b = false) :
    skipSpaces (b :: t) = b :: t := by
  simp [skipSpaces, h]

theorem atoiDigits_stop (acc : Nat) (rest : List Nat)
    (h : ∀ b, rest.head? = some b → isdigit b = false) : atoiDigits acc rest = acc := by
  cases rest with
  | nil => rfl
  | cons b bs => simp [atoiDigits, h b rfl]

theorem atoiDigits_append (acc : Nat) (digits rest : List Nat)
    (hd : ∀ b ∈ digits, isdigit b = true)
    (hr : ∀ b, rest.head? = some b → isdigit b = false) :
    atoiDigits acc (digits ++ rest) =
      digits.foldl (fun a d => a * 10 + (d - 48)) acc := by
  induction digits generalizing acc with
  | nil => exact atoiDigits_stop acc rest hr
  | cons d ds ih =>
    have h1 : isdigit d = true := hd d (List.mem_cons_self _ _)
    simp only [List.cons_append, atoiDigits, h1, if_true, List.foldl_cons]
    exact ih _ (fun x hx => hd x (List.mem_cons_of_mem _ hx))

/-- The value of `atoi` on a string cut into white space, an optional sign, a run of
digits and a remainder that does not continue any of them. -/
theorem atoiValue_eq (ws sign digits rest : List Nat)
    (hws : ∀ b ∈ ws, isspace b = true)
    (hsign : sign = [] ∨ sign = [43] ∨ sign = [45])
    (hdigits : ∀ b ∈ digits, isdigit b = true)
    (hrest : ∀ b, rest.head? = some b → isdigit b = false)
    (hnone : sign = [] → digits = [] →
      ∀ b, rest.head? = some b → isspace b = false ∧ b ≠ 43 ∧ b ≠ 45) :
    atoiValue (ws ++ sign ++ digits ++ rest) =
      if sign = [45] then -((decimalValue digits : Nat) : Int)
      else ((decimalValue digits : Nat) : Int) := by
  have hskip : skipSpaces (ws ++ sign ++ digits ++ rest) = skipSpaces (sign ++ digits ++ rest) := by
    rw [List.append_assoc, List.append_assoc, skipSpaces_append ws _ hws, List.append_assoc]
  unfold atoiValue
  rw [hskip]
  rcases hsign with hs | hs | hs
  · subst hs
    cases digits with
    | nil =>
      cases rest with
      | nil => simp [skipSpaces, decimalValue]
      | cons b bs =>
        obtain ⟨h1, h2, h3⟩ := hnone rfl rfl b rfl
        have h4 : isdigit b = false := hrest b rfl
        simp [skipSpaces, h1, h2, h3, atoiDigits, h4, decimalValue]
    | cons d ds =>
      have hd : isdigit d = true := hdigits d (List.mem_cons_self _ _)
      have hd2 := (isdigit_iff d).1 hd
      have hsp : isspace d = false := by
        cases hsd : isspace d with
        | false => rfl
        | true =>
          have := (isspace_iff d).1 hsd
          omega
      have h45 : d ≠ 45 := by omega
      have h43 : d ≠ 43 := by omega
      have hcat : ([] : List Nat) ++ (d :: ds) ++ rest = d :: (ds ++ rest) := by simp
      rw [hcat, skipSpaces_cons d _ hsp]
      simp only [h45, h43, if_false]
      have := atoiDigits_append 0 (d :: ds) rest hdigits hrest
      rw [List.cons_append] at this
      rw [this]
      simp [decimalValue]
  · subst hs
    have hcat : [43] ++ digits ++ rest = 43 :: (digits ++ rest) := by simp
    rw [hcat, skipSpaces_cons 43 _ (by decide)]
    simp only [show (43 : Nat) ≠ 45 by decide, if_false, if_true]
    rw [atoiDigits_append 0 digits rest hdigits hrest]
    simp [decimalValue]
  · subst hs
    have hcat : [45] ++ digits ++ rest = 45 :: (digits ++ rest) := by simp
    rw [hcat, skipSpaces_cons 45 _ (by decide)]
    simp only [if_true]
    rw [atoiDigits_append 0 digits rest hdigits hrest]
    simp [decimalValue]

/-! ## Claims -/

/-- C1: a command that is null, or whose formatted length is `BUF_SIZE` (256) bytes or
more, makes the native `doBooleanCommand` return false, `doIntCommand` return -1 and
`doStringCommand` return null, with no call to `wifi_command`; a command of exactly 255
bytes passes the check, and `wifi_command` is called with it. -/
theorem C1_rejected_commands (w : Nat) (wifi_command : WifiCommand)
    (command : Option (List Nat)) (reply reply4k : List Nat)
    (h : command = none ∨ ∃ c, command = some c ∧ BUF_SIZE ≤ c.length) :
    (android_net_wifi_doBooleanCommand w wifi_command command reply
        = { sent := [], result := some false }
      ∧ android_net_wifi_doIntCommand w wifi_command command reply
        = { sent := [], result := some (-1) }
      ∧ android_net_wifi_doStringCommand w wifi_command command reply4k
        = { sent := [], result := some none })
    ∧ ∀ c : List Nat, c.length = 255 →
      (android_net_wifi_doBooleanCommand w wifi_command (some c) reply).sent
          = [(c, toSize w ((BUF_SIZE : Int) - 1))]
        ∧ (android_net_wifi_doIntCommand w wifi_command (some c) reply).sent
          = [(c, toSize w ((BUF_SIZE : Int) - 1))]
        ∧ (android_net_wifi_doStringCommand w wifi_command (some c) reply4k).sent
          = [(c, toSize w ((4096 : Int) - 1))] := by
  constructor
  · rcases h with h | ⟨c, h, hc⟩
    · subst h
      exact ⟨rfl, rfl, rfl⟩
    · subst h
      have hc2 : 256 ≤ c.length := hc
      exact ⟨native_bool_long w wifi_command c reply hc2,
        native_int_long w wifi_command c reply hc2,
        native_string_long w wifi_command c reply4k hc2⟩
  · intro c hc
    have hc2 : c.length < 256 := by omega
    rw [native_bool_eq w wifi_command c reply hc2, native_int_eq w wifi_command c reply hc2,
      native_string_eq w wifi_command c reply4k hc2]
    exact ⟨rfl, rfl, rfl⟩

/-- C1 at a command of 256 bytes `A`, with a library that would answer `OK`. -/
theorem C1_rejected_commands_witness :
    (some (filled 256 65) = none ∨ ∃ c, some (filled 256 65) = some c ∧ BUF_SIZE ≤ c.length)
    ∧ android_net_wifi_doBooleanCommand 32 (replyWith 0 [79, 75, 10]) (some (filled 256 65))
        (filled 256 0) = { sent := [], result := some false }
    ∧ android_net_wifi_doIntCommand 32 (replyWith 0 [79, 75, 10]) (some (filled 256 65))
        (filled 256 0) = { sent := [], result := some (-1) }
    ∧ android_net_wifi_doStringCommand 32 (replyWith 0 [79, 75, 10]) (some (filled 256 65))
        (filled 4096 0) = { sent := [], result := some none } :=
  have h : some (filled 256 65) = none
      ∨ ∃ c, some (filled 256 65) = some c ∧ BUF_SIZE ≤ c.length :=
    Or.inr ⟨filled 256 65, rfl, by rw [filled_length]; decide⟩
  ⟨h, (C1_rejected_commands 32 (replyWith 0 [79, 75, 10]) (some (filled 256 65))
    (filled 256 0) (filled 4096 0) h).1⟩

/-- C2: for a non-null command shorter than 256 bytes, when `wifi_command` returns a code
other than 0, `doCommand` returns -1, and so `doBooleanCommand` returns false,
`doIntCommand` returns -1 and `doStringCommand` returns null, whatever `wifi_command` left
in the reply array. -/
theorem C2_command_failure (w : Nat) (hw : 32 ≤ w) (wifi_command : WifiCommand)
    (c reply reply4k : List Nat) (hc : c.length < 256)
    (hfail : (wifi_command c reply 255).ret ≠ 0)
    (hfail4k : (wifi_command c reply4k 4095).ret ≠ 0) :
    (doCommand w wifi_command c reply (BUF_SIZE : Int)).result
        = some (-1, (wifi_command c reply 255).replybuf)
    ∧ (doCommand w wifi_command c reply4k 4096).result
        = some (-1, (wifi_command c reply4k 4095).replybuf)
    ∧ (android_net_wifi_doBooleanCommand w wifi_command (some c) reply).result = some false
    ∧ (android_net_wifi_doIntCommand w wifi_command (some c) reply).result = some (-1)
    ∧ (android_net_wifi_doStringCommand w wifi_command (some c) reply4k).result
        = some none := by
  have h1 : (doCommand w wifi_command c reply (BUF_SIZE : Int)).result
      = some (-1, (wifi_command c reply 255).replybuf) := by
    have := doCommand_fail w wifi_command c reply (BUF_SIZE : Int)
    rw [toSize_255 hw] at this
    exact this hfail
  have h2 : (doCommand w wifi_command c reply4k 4096).result
      = some (-1, (wifi_command c reply4k 4095).replybuf) := by
    have := doCommand_fail w wifi_command c reply4k 4096
    rw [toSize_4095 hw] at this
    exact this hfail4k
  refine ⟨h1, h2, ?_, ?_, ?_⟩
  · rw [native_bool_eq w wifi_command c reply hc]
    simp only [h1]
    rfl
  · rw [native_int_eq w wifi_command c reply hc]
    simp only [h1]
    rfl
  · rw [native_string_eq w wifi_command c reply4k hc]
    simp only [h2]
    rfl

/-- C2 at the command `PING` with a library that returns -2 after writing `OK` and a
newline to the reply array. -/
theorem C2_command_failure_witness :
    ((replyWith (-2) [79, 75, 10]) [80, 73, 78, 71] (filled 256 0) 255).ret ≠ 0
    ∧ (android_net_wifi_doBooleanCommand 32 (replyWith (-2) [79, 75, 10])
        (some [80, 73, 78, 71]) (filled 256 0)).result = some false
    ∧ (android_net_wifi_doIntCommand 32 (replyWith (-2) [79, 75, 10])
        (some [80, 73, 78, 71]) (filled 256 0)).result = some (-1)
    ∧ (android_net_wifi_doStringCommand 32 (replyWith (-2) [79, 75, 10])
        (some [80, 73, 78, 71]) (filled 4096 0)).result = some none :=
  ⟨by decide,
    (C2_command_failure 32 (by decide) (replyWith (-2) [79, 75, 10]) [80, 73, 78, 71]
      (filled 256 0) (filled 4096 0) (by decide) (by decide) (by decide)).2.2⟩

/-- C4: `loadDriver`, `unloadDriver`, `startSupplicant`, `startP2pSupplicant`,
`killSupplicant` and `connectToSupplicant` return true exactly when the library returns 0;
`isDriverLoaded` returns true exactly when the library returns 1. -/
theorem C4_return_code_conversion (r : Int) :
    (android_net_wifi_loadDriver r = true ↔ r = 0)
    ∧ (android_net_wifi_unloadDriver r = true ↔ r = 0)
    ∧ (android_net_wifi_startSupplicant r = true ↔ r = 0)
    ∧ (android_net_wifi_startP2pSupplicant r = true ↔ r = 0)
    ∧ (android_net_wifi_killSupplicant r = true ↔ r = 0)
    ∧ (android_net_wifi_connectToSupplicant r = true ↔ r = 0)
    ∧ (android_net_wifi_isDriverLoaded r = true ↔ r = 1) := by
  simp [android_net_wifi_loadDriver, android_net_wifi_unloadDriver,
    android_net_wifi_startSupplicant, android_net_wifi_startP2pSupplicant,
    android_net_wifi_killSupplicant, android_net_wifi_connectToSupplicant,
    android_net_wifi_isDriverLoaded]

/-- C3: the native `doBooleanCommand` returns true if and only if the command is non-null,
shorter than 256 bytes, `wifi_command` returns 0, and the reply, read as a C string after
the removal of at most one trailing newline, is exactly `OK`. -/
theorem C3_boolean_true_iff (w : Nat) (hw : 32 ≤ w) (wifi_command : WifiCommand)
    (command : Option (List Nat)) (reply : List Nat)
    (hfits : ∀ c, command = some c → (wifi_command c reply 255).ret = 0 →
      (wifi_command c reply 255).fits 256) :
    (android_net_wifi_doBooleanCommand w wifi_command command reply).result = some true ↔
      ∃ c, command = some c ∧ c.length < 256 ∧ (wifi_command c reply 255).ret = 0
        ∧ cstr (stripNewline (wifi_command c reply 255).reply) = OK := by
  cases command with
  | none =>
    constructor
    · intro h
      exact absurd h (by simp [android_net_wifi_doBooleanCommand])
    · rintro ⟨c, hc, _⟩
      exact absurd hc (by simp)
  | some c =>
    by_cases hc : c.length < 256
    · by_cases hret : (wifi_command c reply 255).ret = 0
      · rw [native_bool_ok w hw wifi_command c reply hc hret (hfits c rfl hret)]
        constructor
        · intro h
          exact ⟨c, rfl, hc, hret, by simpa using h⟩
        · rintro ⟨c2, h2, _, _, hok⟩
          cases h2
          simp [hok]
      · rw [native_bool_fail w hw wifi_command c reply hc hret]
        constructor
        · intro h
          exact absurd h (by simp)
        · rintro ⟨c2, h2, _, h0, _⟩
          cases h2
          exact absurd h0 hret
    · rw [native_bool_long w wifi_command c reply (by omega)]
      constructor
      · intro h
        exact absurd h (by simp)
      · rintro ⟨c2, h2, hlt, _⟩
        cases h2
        exact absurd hlt hc

/-- C3 at the command `PING`: the replies `OK` with a newline and `OK` give true; `OK`
with a space, `ok`, `OK` with two newlines and `OKAY` do not. -/
theorem C3_boolean_true_iff_witness :
    (∀ c, some [80, 73, 78, 71] = some c →
        (replyWith 0 [79, 75, 10] c (filled 256 0) 255).ret = 0 →
        (replyWith 0 [79, 75, 10] c (filled 256 0) 255).fits 256)
    ∧ (android_net_wifi_doBooleanCommand 32 (replyWith 0 [79, 75, 10])
        (some [80, 73, 78, 71]) (filled 256 0)).result = some true
    ∧ (android_net_wifi_doBooleanCommand 32 (replyWith 0 [79, 75])
        (some [80, 73, 78, 71]) (filled 256 0)).result = some true
    ∧ (android_net_wifi_doBooleanCommand 32 (replyWith 0 [79, 75, 32])
        (some [80, 73, 78, 71]) (filled 256 0)).result ≠ some true
    ∧ (android_net_wifi_doBooleanCommand 32 (replyWith 0 [111, 107])
        (some [80, 73, 78, 71]) (filled 256 0)).result ≠ some true
    ∧ (android_net_wifi_doBooleanCommand 32 (replyWith 0 [79, 75, 10, 10])
        (some [80, 73, 78, 71]) (filled 256 0)).result ≠ some true
    ∧ (android_net_wifi_doBooleanCommand 32 (replyWith 0 [79, 75, 65, 89])
        (some [80, 73, 78, 71]) (filled 256 0)).result ≠ some true :=
  ⟨sample_fits 0 [79, 75, 10] _ (by decide),
    (C3_boolean_true_iff 32 (by decide) (replyWith 0 [79, 75, 10]) (some [80, 73, 78, 71])
      (filled 256 0) (sample_fits 0 _ _ (by decide))).2
      ((sample_ok_iff _ _).2 (by decide)),
    (C3_boolean_true_iff 32 (by decide) (replyWith 0 [79, 75]) (some [80, 73, 78, 71])
      (filled 256 0) (sample_fits 0 _ _ (by decide))).2
      ((sample_ok_iff _ _).2 (by decide)),
    fun h => absurd ((sample_ok_iff _ _).1
      ((C3_boolean_true_iff 32 (by decide) (replyWith 0 [79, 75, 32])
        (some [80, 73, 78, 71]) (filled 256 0) (sample_fits 0 _ _ (by decide))).1 h))
      (by decide),
    fun h => absurd ((sample_ok_iff _ _).1
      ((C3_boolean_true_iff 32 (by decide) (replyWith 0 [111, 107])
        (some [80, 73, 78, 71]) (filled 256 0) (sample_fits 0 _ _ (by decide))).1 h))
      (by decide),
    fun h => absurd ((sample_ok_iff _ _).1
      ((C3_boolean_true_iff 32 (by decide) (replyWith 0 [79, 75, 10, 10])
        (some [80, 73, 78, 71]) (filled 256 0) (sample_fits 0 _ _ (by decide))).1 h))
      (by decide),
    fun h => absurd ((sample_ok_iff _ _).1
      ((C3_boolean_true_iff 32 (by decide) (replyWith 0 [79, 75, 65, 89])
        (some [80, 73, 78, 71]) (filled 256 0) (sample_fits 0 _ _ (by decide))).1 h))
      (by decide)⟩

/-- C5: `waitForEvent` returns null if and only if `wifi_wait_for_event` reports
`nread ≤ 0`; for `nread > 0` it returns a non-null string made of the bytes of the event
array before its first NUL, whatever the value of `nread`. -/
theorem C5_wait_for_event (wifi_wait_for_event : WifiWaitForEvent) (buf : List Nat) :
    (android_net_wifi_waitForEvent wifi_wait_for_event buf = some none
        ↔ (wifi_wait_for_event buf BUF_SIZE).1 ≤ 0)
    ∧ (0 < (wifi_wait_for_event buf BUF_SIZE).1 → 0 ∈ (wifi_wait_for_event buf BUF_SIZE).2 →
        android_net_wifi_waitForEvent wifi_wait_for_event buf
          = some (some (cstr (wifi_wait_for_event buf BUF_SIZE).2))) := by
  unfold android_net_wifi_waitForEvent
  constructor
  · by_cases h : (wifi_wait_for_event buf BUF_SIZE).1 > 0
    · simp only [h, if_true]
      constructor
      · intro h2
        unfold readCStr at h2
        split at h2 <;> simp at h2
      · intro h2
        omega
    · simp only [h, if_false, true_iff]
      omega
  · intro h hz
    simp only [gt_iff_lt, h, if_true, readCStr, hz, Option.map_some']

/-- C5 at an event array holding `CT`, a NUL, then `XY`, reported with `nread = 5`: the
string returned is `CT`, two bytes and not five. -/
theorem C5_wait_for_event_witness :
    0 < (eventWith 5 [67, 84, 0, 88, 89] (filled 256 170) BUF_SIZE).1
    ∧ 0 ∈ (eventWith 5 [67, 84, 0, 88, 89] (filled 256 170) BUF_SIZE).2
    ∧ android_net_wifi_waitForEvent (eventWith 5 [67, 84, 0, 88, 89]) (filled 256 170)
        = some (some [67, 84]) :=
  have hz : 0 ∈ (eventWith 5 [67, 84, 0, 88, 89] (filled 256 170) BUF_SIZE).2 := by
    simp [eventWith]
  ⟨by decide, hz,
    ((C5_wait_for_event (eventWith 5 [67, 84, 0, 88, 89]) (filled 256 170)).2
      (by decide) hz).trans (by simp [eventWith, cstr])⟩

/-- C7: when `wifi_command` returns 0 with a reply of `n` bytes holding no NUL, `doCommand`
returns 0 and the array then holds the NUL-terminated string equal to the reply without its
last byte when `n > 0` and that byte is a newline, and to the whole reply otherwise; at
most one newline goes (of two trailing newlines one stays), and only from the end. -/
theorem C7_doCommand_strips_one_newline (w : Nat) (hw : 32 ≤ w)
    (wifi_command : WifiCommand) (cmd replybuf : List Nat) (replybuflen : Int)
    (h1 : 1 ≤ replybuflen) (h2 : replybuflen ≤ INT_MAX)
    (hret : (wifi_command cmd replybuf (replybuflen - 1).toNat).ret = 0)
    (hfits : (wifi_command cmd replybuf (replybuflen - 1).toNat).fits replybuflen.toNat)
    (hnul : 0 ∉ (wifi_command cmd replybuf (replybuflen - 1).toNat).reply) :
    ∃ buf kept,
      (doCommand w wifi_command cmd replybuf replybuflen).result = some (0, buf)
      ∧ readCStr buf = some kept
      ∧ kept =
        (if 0 < (wifi_command cmd replybuf (replybuflen - 1).toNat).reply_len
            ∧ (wifi_command cmd replybuf (replybuflen - 1).toNat).reply.getLast? = some 10
          then (wifi_command cmd replybuf (replybuflen - 1).toNat).reply.dropLast
          else (wifi_command cmd replybuf (replybuflen - 1).toNat).reply)
      ∧ ((wifi_command cmd replybuf (replybuflen - 1).toNat).reply = kept
        ∨ (wifi_command cmd replybuf (replybuflen - 1).toNat).reply = kept ++ [10])
      ∧ ∀ s, (wifi_command cmd replybuf (replybuflen - 1).toNat).reply = s ++ [10, 10] →
        kept = s ++ [10] := by
  have hsz : toSize w (replybuflen - 1) = (replybuflen - 1).toNat :=
    toSize_eq hw (by omega) (by omega)
  have hpos : 0 < replybuflen.toNat := by omega
  obtain ⟨buf, hb1, hb2⟩ := doCommand_ok_cstr w wifi_command cmd replybuf replybuflen
    (wifi_command cmd replybuf (replybuflen - 1).toNat) (by rw [hsz]) hret
    (fits_lt hpos hfits)
  refine ⟨buf, stripNewline (wifi_command cmd replybuf (replybuflen - 1).toNat).reply,
    hb1, ?_, ?_, stripNewline_cases _, ?_⟩
  · rw [hb2, cstr_eq_self _ (not_mem_stripNewline _ hnul)]
  · unfold stripNewline
    by_cases hl : (wifi_command cmd replybuf (replybuflen - 1).toNat).reply.getLast? = some 10
    · have hne : 0 < (wifi_command cmd replybuf (replybuflen - 1).toNat).reply_len := by
        rcases Nat.eq_zero_or_pos
          (wifi_command cmd replybuf (replybuflen - 1).toNat).reply_len with hz | hp
        · unfold CmdResult.reply at hl
          rw [hz] at hl
          simp at hl
        · exact hp
      rw [if_pos hl, if_pos ⟨hne, hl⟩]
    · rw [if_neg hl, if_neg (fun h => hl h.2)]
  · intro s hs
    rw [hs, stripNewline_two_newlines]

/-- C7 at a reply of `OK` and two newlines in an array of 256 bytes: `doCommand` returns 0
and leaves the string `OK` with one newline. -/
theorem C7_doCommand_strips_one_newline_witness :
    ((replyWith 0 [79, 75, 10, 10]) [80, 73, 78, 71] (filled 256 0) ((256 : Int) - 1).toNat).ret = 0
    ∧ ((replyWith 0 [79, 75, 10, 10]) [80, 73, 78, 71] (filled 256 0)
        ((256 : Int) - 1).toNat).fits (256 : Int).toNat
    ∧ 0 ∉ ((replyWith 0 [79, 75, 10, 10]) [80, 73, 78, 71] (filled 256 0)
        ((256 : Int) - 1).toNat).reply
    ∧ ∃ buf, (doCommand 32 (replyWith 0 [79, 75, 10, 10]) [80, 73, 78, 71] (filled 256 0)
          256).result = some (0, buf)
        ∧ readCStr buf = some [79, 75, 10] := by
  have hfits : ((replyWith 0 [79, 75, 10, 10]) [80, 73, 78, 71] (filled 256 0)
      ((256 : Int) - 1).toNat).fits (256 : Int).toNat :=
    replyWith_fits 0 _ _ _ _ 256 (by decide) (filled_length 256 0)
  have hnul : 0 ∉ ((replyWith 0 [79, 75, 10, 10]) [80, 73, 78, 71] (filled 256 0)
      ((256 : Int) - 1).toNat).reply := by
    rw [replyWith_reply]
    decide
  refine ⟨rfl, hfits, hnul, ?_⟩
  obtain ⟨buf, kept, h1, h2, _, _, h5⟩ :=
    C7_doCommand_strips_one_newline 32 (by decide) (replyWith 0 [79, 75, 10, 10])
      [80, 73, 78, 71] (filled 256 0) 256 (by decide) (by decide) rfl hfits hnul
  have hk : kept = [79, 75, 10] := h5 [79, 75] (replyWith_reply _ _ _ _ _)
  exact ⟨buf, h1, by rw [h2, hk]⟩

/-- C8: for a reply array of `replybuflen ≥ 1` bytes, `doCommand` passes the capacity
`replybuflen - 1` to `wifi_command` (255 from `doBooleanCommand` and `doIntCommand`, 4095
from `doStringCommand`), and when `wifi_command` reports a length no larger than that
capacity, the index where the NUL is stored (`reply_len - 1` or `reply_len`) lies within
`0 .. replybuflen - 1`, inside the array. -/
theorem C8_nul_write_in_bounds (w : Nat) (hw : 32 ≤ w) (wifi_command : WifiCommand)
    (cmd replybuf : List Nat) (replybuflen : Int)
    (h1 : 1 ≤ replybuflen) (h2 : replybuflen ≤ INT_MAX) :
    (doCommand w wifi_command cmd replybuf replybuflen).sent
        = [(cmd, (replybuflen - 1).toNat)]
    ∧ (∀ c reply reply4k : List Nat, c.length < 256 →
        (android_net_wifi_doBooleanCommand w wifi_command (some c) reply).sent = [(c, 255)]
        ∧ (android_net_wifi_doIntCommand w wifi_command (some c) reply).sent = [(c, 255)]
        ∧ (android_net_wifi_doStringCommand w wifi_command (some c) reply4k).sent
            = [(c, 4095)])
    ∧ ((wifi_command cmd replybuf (replybuflen - 1).toNat).replybuf.length
          = replybuflen.toNat →
        (wifi_command cmd replybuf (replybuflen - 1).toNat).reply_len
          ≤ (replybuflen - 1).toNat →
        ∃ i : Nat,
          nulIndex (wifi_command cmd replybuf (replybuflen - 1).toNat).replybuf
            (wifi_command cmd replybuf (replybuflen - 1).toNat).reply_len = some i
          ∧ (i = (wifi_command cmd replybuf (replybuflen - 1).toNat).reply_len
            ∨ (0 < (wifi_command cmd replybuf (replybuflen - 1).toNat).reply_len
              ∧ i = (wifi_command cmd replybuf (replybuflen - 1).toNat).reply_len - 1))
          ∧ (i : Int) ≤ replybuflen - 1
          ∧ i < (wifi_command cmd replybuf (replybuflen - 1).toNat).replybuf.length
          ∧ ((wifi_command cmd replybuf (replybuflen - 1).toNat).ret = 0 →
            (doCommand w wifi_command cmd replybuf replybuflen).result
              = some (0,
                (wifi_command cmd replybuf (replybuflen - 1).toNat).replybuf.set i 0))) := by
  have hsz : toSize w (replybuflen - 1) = (replybuflen - 1).toNat :=
    toSize_eq hw (by omega) (by omega)
  refine ⟨by rw [doCommand_sent, hsz], ?_, ?_⟩
  · intro c reply reply4k hc
    rw [native_bool_eq w wifi_command c reply hc, native_int_eq w wifi_command c reply hc,
      native_string_eq w wifi_command c reply4k hc]
    simp only [doCommand_sent, toSize_255 hw, toSize_4095 hw, and_self]
  · intro hlen hcap
    have hlt : (wifi_command cmd replybuf (replybuflen - 1).toNat).reply_len
        < (wifi_command cmd replybuf (replybuflen - 1).toNat).replybuf.length := by
      omega
    have hidx := nulIndex_eq _ _ hlt
    have hcases := stripNewline_cases (wifi_command cmd replybuf (replybuflen - 1).toNat).reply
    have hrl : (wifi_command cmd replybuf (replybuflen - 1).toNat).reply.length
        = (wifi_command cmd replybuf (replybuflen - 1).toNat).reply_len := by
      unfold CmdResult.reply
      rw [List.length_take]
      omega
    have hk : (stripNewline (wifi_command cmd replybuf (replybuflen - 1).toNat).reply).length
          = (wifi_command cmd replybuf (replybuflen - 1).toNat).reply_len
        ∨ (0 < (wifi_command cmd replybuf (replybuflen - 1).toNat).reply_len
          ∧ (stripNewline (wifi_command cmd replybuf (replybuflen - 1).toNat).reply).length
            = (wifi_command cmd replybuf (replybuflen - 1).toNat).reply_len - 1) := by
      rcases hcases with hs | hs
      · left
        rw [← hrl]
        exact congrArg List.length hs.symm
      · right
        have := congrArg List.length hs
        rw [List.length_append, hrl] at this
        simp only [List.length_singleton] at this
        omega
    refine ⟨_, hidx.1, hk, ?_, ?_, ?_⟩
    · rcases hk with hk | ⟨_, hk⟩ <;> unfold CmdResult.reply at hk <;> omega
    · rcases hk with hk | ⟨_, hk⟩ <;> unfold CmdResult.reply at hk <;> omega
    · intro hret
      exact (doCommand_ok w wifi_command cmd replybuf replybuflen _ (by rw [hsz]) hret hlt).1

/-- C8 at an array of 256 bytes and a reply that fills the whole capacity of 255 bytes:
the call is made with capacity 255 and the NUL goes to an index of at most 255, inside
the array. -/
theorem C8_nul_write_in_bounds_witness :
    (1 : Int) ≤ 256 ∧ (256 : Int) ≤ INT_MAX
    ∧ (replyWith 0 (filled 255 65) [80, 73, 78, 71] (filled 256 0)
        ((256 : Int) - 1).toNat).replybuf.length = (256 : Int).toNat
    ∧ (replyWith 0 (filled 255 65) [80, 73, 78, 71] (filled 256 0)
        ((256 : Int) - 1).toNat).reply_len ≤ ((256 : Int) - 1).toNat
    ∧ (doCommand 32 (replyWith 0 (filled 255 65)) [80, 73, 78, 71] (filled 256 0) 256).sent
        = [([80, 73, 78, 71], 255)]
    ∧ ∃ i : Nat,
        nulIndex (replyWith 0 (filled 255 65) [80, 73, 78, 71] (filled 256 0)
            ((256 : Int) - 1).toNat).replybuf
          (replyWith 0 (filled 255 65) [80, 73, 78, 71] (filled 256 0)
            ((256 : Int) - 1).toNat).reply_len = some i
        ∧ (i : Int) ≤ 256 - 1 := by
  have hfits := replyWith_fits 0 (filled 255 65) [80, 73, 78, 71] (filled 256 0)
    ((256 : Int) - 1).toNat 256 (by rw [filled_length]) (filled_length 256 0)
  have hlen : (replyWith 0 (filled 255 65) [80, 73, 78, 71] (filled 256 0)
      ((256 : Int) - 1).toNat).replybuf.length = (256 : Int).toNat := hfits.1
  have hcap : (replyWith 0 (filled 255 65) [80, 73, 78, 71] (filled 256 0)
      ((256 : Int) - 1).toNat).reply_len ≤ ((256 : Int) - 1).toNat := hfits.2
  have h := C8_nul_write_in_bounds 32 (by decide) (replyWith 0 (filled 255 65))
    [80, 73, 78, 71] (filled 256 0) 256 (by decide) (by decide)
  obtain ⟨i, hi, _, hle, _⟩ := h.2.2 hlen hcap
  exact ⟨by decide, by decide, hlen, hcap, h.1, i, hi, hle⟩

/-- C9: the value -1 of `doIntCommand` does not identify failure: a command shorter than
256 bytes for which `wifi_command` returns 0 with the reply `-1` and a newline yields -1,
the value also returned when `wifi_command` fails. -/
theorem C9_sentinel_is_ambiguous (w : Nat) (hw : 32 ≤ w) :
    ∃ (c reply : List Nat) (succeeds fails : WifiCommand),
      c.length < 256
      ∧ (succeeds c reply 255).ret = 0
      ∧ (succeeds c reply 255).fits 256
      ∧ (succeeds c reply 255).reply = [45, 49, 10]
      ∧ (android_net_wifi_doIntCommand w succeeds (some c) reply).result = some (-1)
      ∧ (fails c reply 255).ret ≠ 0
      ∧ (android_net_wifi_doIntCommand w fails (some c) reply).result = some (-1) := by
  refine ⟨[80, 73, 78, 71], filled 256 0, replyWith 0 [45, 49, 10], replyWith 1 [],
    by decide, rfl, replyWith_fits 0 _ _ _ _ 256 (by decide) (filled_length 256 0),
    replyWith_reply _ _ _ _ _, ?_, by decide, ?_⟩
  · rw [native_int_ok w hw _ _ _ (by decide) rfl
      (replyWith_fits 0 _ _ _ _ 256 (by decide) (filled_length 256 0)), replyWith_reply]
    decide
  · exact native_int_fail w hw _ _ _ (by decide) (by decide)

/-- C9 for a `size_t` of 32 bits. -/
theorem C9_sentinel_is_ambiguous_witness :
    32 ≤ 32 ∧ ∃ (c reply : List Nat) (succeeds fails : WifiCommand),
      c.length < 256
      ∧ (succeeds c reply 255).ret = 0
      ∧ (succeeds c reply 255).fits 256
      ∧ (succeeds c reply 255).reply = [45, 49, 10]
      ∧ (android_net_wifi_doIntCommand 32 succeeds (some c) reply).result = some (-1)
      ∧ (fails c reply 255).ret ≠ 0
      ∧ (android_net_wifi_doIntCommand 32 fails (some c) reply).result = some (-1) :=
  ⟨by decide, C9_sentinel_is_ambiguous 32 (by decide)⟩

/-- C6, as amended: for a non-null command shorter than 256 bytes for which `wifi_command`
returns 0, the native `doIntCommand` returns `atoi` of the newline-stripped reply; when
the value of the optionally signed decimal digits that follow any leading white space
lies within `INT_MIN .. INT_MAX`, the result is that value, whatever comes after the
digits, which is 0 when there are no such digits. -/
theorem C6_int_command_is_atoi (w : Nat) (hw : 32 ≤ w) (wifi_command : WifiCommand)
    (c reply : List Nat) (hc : c.length < 256)
    (hret : (wifi_command c reply 255).ret = 0)
    (hfits : (wifi_command c reply 255).fits 256)
    (ws sign digits rest : List Nat)
    (hsplit : cstr (stripNewline (wifi_command c reply 255).reply)
      = ws ++ sign ++ digits ++ rest)
    (hws : ∀ b ∈ ws, isspace b = true)
    (hsign : sign = [] ∨ sign = [43] ∨ sign = [45])
    (hdigits : ∀ b ∈ digits, isdigit b = true)
    (hrest : ∀ b, rest.head? = some b → isdigit b = false)
    (hnone : sign = [] → digits = [] →
      ∀ b, rest.head? = some b → isspace b = false ∧ b ≠ 43 ∧ b ≠ 45)
    (hmin : INT_MIN ≤
      (if sign = [45] then -((decimalValue digits : Nat) : Int)
        else ((decimalValue digits : Nat) : Int)))
    (hmax : (if sign = [45] then -((decimalValue digits : Nat) : Int)
        else ((decimalValue digits : Nat) : Int)) ≤ INT_MAX) :
    (android_net_wifi_doIntCommand w wifi_command (some c) reply).result
        = atoi (cstr (stripNewline (wifi_command c reply 255).reply))
    ∧ (android_net_wifi_doIntCommand w wifi_command (some c) reply).result
        = some (if sign = [45] then -((decimalValue digits : Nat) : Int)
            else ((decimalValue digits : Nat) : Int)) := by
  have h1 := native_int_ok w hw wifi_command c reply hc hret hfits
  refine ⟨h1, ?_⟩
  rw [h1, hsplit]
  unfold atoi
  rw [atoiValue_eq ws sign digits rest hws hsign hdigits hrest hnone]
  exact if_pos ⟨hmin, hmax⟩

/-- C6 at the command `PING`: the reply of a space, `-42abc` and a newline gives -42; the
reply `FAIL` gives 0 and the empty reply gives 0, not -1. -/
theorem C6_int_command_is_atoi_witness :
    ([80, 73, 78, 71] : List Nat).length < 256
    ∧ (replyWith 0 [32, 45, 52, 50, 97, 98, 99, 10] [80, 73, 78, 71] (filled 256 0) 255).ret = 0
    ∧ (replyWith 0 [32, 45, 52, 50, 97, 98, 99, 10] [80, 73, 78, 71]
        (filled 256 0) 255).fits 256
    ∧ cstr (stripNewline (replyWith 0 [32, 45, 52, 50, 97, 98, 99, 10] [80, 73, 78, 71]
        (filled 256 0) 255).reply) = [32] ++ [45] ++ [52, 50] ++ [97, 98, 99]
    ∧ (android_net_wifi_doIntCommand 32 (replyWith 0 [32, 45, 52, 50, 97, 98, 99, 10])
        (some [80, 73, 78, 71]) (filled 256 0)).result = some (-42)
    ∧ (android_net_wifi_doIntCommand 32 (replyWith 0 [70, 65, 73, 76])
        (some [80, 73, 78, 71]) (filled 256 0)).result = some 0
    ∧ (android_net_wifi_doIntCommand 32 (replyWith 0 [])
        (some [80, 73, 78, 71]) (filled 256 0)).result = some 0 := by
  have hsplit : cstr (stripNewline (replyWith 0 [32, 45, 52, 50, 97, 98, 99, 10]
      [80, 73, 78, 71] (filled 256 0) 255).reply) = [32] ++ [45] ++ [52, 50] ++ [97, 98, 99] := by
    rw [replyWith_reply]
    decide
  have hfail : cstr (stripNewline (replyWith 0 [70, 65, 73, 76]
      [80, 73, 78, 71] (filled 256 0) 255).reply) = [] ++ [] ++ [] ++ [70, 65, 73, 76] := by
    rw [replyWith_reply]
    decide
  have hempty : cstr (stripNewline (replyWith 0 []
      [80, 73, 78, 71] (filled 256 0) 255).reply) = [] ++ [] ++ [] ++ [] := by
    rw [replyWith_reply]
    decide
  have hfits := fun bytes (hb : bytes.length ≤ 255) =>
    replyWith_fits 0 bytes [80, 73, 78, 71] (filled 256 0) 255 256 hb (filled_length 256 0)
  refine ⟨by decide, rfl, hfits _ (by decide), hsplit, ?_, ?_, ?_⟩
  · exact (C6_int_command_is_atoi 32 (by decide) (replyWith 0 [32, 45, 52, 50, 97, 98, 99, 10])
      [80, 73, 78, 71] (filled 256 0) (by decide) rfl (hfits _ (by decide))
      [32] [45] [52, 50] [97, 98, 99] hsplit (by decide) (by decide) (by decide)
      (by intro b h; cases h; decide) (by intro h; cases h)
      (by decide) (by decide)).2
  · exact (C6_int_command_is_atoi 32 (by decide) (replyWith 0 [70, 65, 73, 76])
      [80, 73, 78, 71] (filled 256 0) (by decide) rfl (hfits _ (by decide))
      [] [] [] [70, 65, 73, 76] hfail (by decide) (by decide) (by decide)
      (by intro b h; cases h; decide) (by intro _ _ b h; cases h; decide)
      (by decide) (by decide)).2
  · exact (C6_int_command_is_atoi 32 (by decide) (replyWith 0 [])
      [80, 73, 78, 71] (filled 256 0) (by decide) rfl (hfits _ (by decide))
      [] [] [] [] hempty (by decide) (by decide) (by decide)
      (by intro b h; cases h) (by intro _ _ b h; cases h)
      (by decide) (by decide)).2

/-- C6 as first stated, without the bound on the value, fails: for the command `PING` and
the successful replies `2147483648` with a newline and `4294967295`, whose digits exceed
`INT_MAX`, the native `doIntCommand` does not return the value of the digits. -/
theorem C6_int_command_out_of_range :
    ([80, 73, 78, 71] : List Nat).length < 256
    ∧ (replyWith 0 [50, 49, 52, 55, 52, 56, 51, 54, 52, 56, 10] [80, 73, 78, 71]
        (filled 256 0) 255).ret = 0
    ∧ (replyWith 0 [50, 49, 52, 55, 52, 56, 51, 54, 52, 56, 10] [80, 73, 78, 71]
        (filled 256 0) 255).fits 256
    ∧ cstr (stripNewline (replyWith 0 [50, 49, 52, 55, 52, 56, 51, 54, 52, 56, 10]
        [80, 73, 78, 71] (filled 256 0) 255).reply)
        = [] ++ [] ++ [50, 49, 52, 55, 52, 56, 51, 54, 52, 56] ++ []
    ∧ (∀ b ∈ [50, 49, 52, 55, 52, 56, 51, 54, 52, 56], isdigit b = true)
    ∧ decimalValue [50, 49, 52, 55, 52, 56, 51, 54, 52, 56] = 2147483648
    ∧ INT_MAX < 2147483648
    ∧ (android_net_wifi_doIntCommand 32
        (replyWith 0 [50, 49, 52, 55, 52, 56, 51, 54, 52, 56, 10])
        (some [80, 73, 78, 71]) (filled 256 0)).result
        ≠ some ((decimalValue [50, 49, 52, 55, 52, 56, 51, 54, 52, 56] : Nat) : Int)
    ∧ decimalValue [52, 50, 57, 52, 57, 54, 55, 50, 57, 53] = 4294967295
    ∧ (android_net_wifi_doIntCommand 32
        (replyWith 0 [52, 50, 57, 52, 57, 54, 55, 50, 57, 53])
        (some [80, 73, 78, 71]) (filled 256 0)).result
        ≠ some ((decimalValue [52, 50, 57, 52, 57, 54, 55, 50, 57, 53] : Nat) : Int) := by
  have hfits := fun bytes (hb : bytes.length ≤ 255) =>
    replyWith_fits 0 bytes [80, 73, 78, 71] (filled 256 0) 255 256 hb (filled_length 256 0)
  have hsplit : cstr (stripNewline (replyWith 0 [50, 49, 52, 55, 52, 56, 51, 54, 52, 56, 10]
      [80, 73, 78, 71] (filled 256 0) 255).reply)
      = [] ++ [] ++ [50, 49, 52, 55, 52, 56, 51, 54, 52, 56] ++ [] := by
    rw [replyWith_reply]
    decide
  refine ⟨by decide, rfl, hfits _ (by decide), hsplit, by decide, by decide, by decide,
    ?_, by decide, ?_⟩
  · rw [native_int_ok 32 (by decide) _ _ _ (by decide) rfl (hfits _ (by decide)),
      replyWith_reply]
    decide
  · rw [native_int_ok 32 (by decide) _ _ _ (by decide) rfl (hfits _ (by decide)),
      replyWith_reply]
    decide

end Wifi
